import Mathlib

/-!
Shallow embedding of the job-application tracking module
(src/CustomGPT/src/job_tracker.py) and proofs about its operations.

The Python module stores two kinds of records (job applications and
interviews) in a SQLite database and exposes CRUD and aggregate-query
operations on them.  The embedding models the database as an explicit
state value: a list of stored application rows, a list of stored
interview rows, and the AUTOINCREMENT counters of both tables.  SQLite
TEXT columns are modelled as `String`; SQLite compares TEXT values
lexicographically byte-by-byte, which `String`'s order mirrors for the
ASCII date strings the module stores.  The current wall-clock time is an
implicit input of several operations; the embedding passes it explicitly
as the `now` (timestamp) or `cutoff` (computed deadline date) argument.
-/

namespace JobTracker

/-- Stored row of the job_applications table.  Python dataclass
JobApplication (job_tracker.py lines 18-41): every column other than the
INTEGER PRIMARY KEY id is TEXT. -/
structure JobApplication where
  id : Nat := 0
  company : String := ""
  position : String := ""
  location : String := ""
  job_url : String := ""
  job_description : String := ""
  application_date : String := ""
  status : String := "applied"
  priority : String := "medium"
  salary_range : String := ""
  notes : String := ""
  recruiter_name : String := ""
  recruiter_email : String := ""
  follow_up_date : String := ""
  interview_date : String := ""
  interview_type : String := ""
  interview_notes : String := ""
  rejection_reason : String := ""
  offer_amount : String := ""
  created_at : String := ""
  updated_at : String := ""
deriving Repr, DecidableEq

/-- Stored row of the interviews table.  Python dataclass Interview
(job_tracker.py lines 43-58). -/
structure Interview where
  id : Nat := 0
  application_id : Nat := 0
  interview_date : String := ""
  interview_type : String := ""
  interviewer_name : String := ""
  interviewer_title : String := ""
  questions_asked : String := ""
  my_answers : String := ""
  feedback_received : String := ""
  next_steps : String := ""
  preparation_notes : String := ""
  created_at : String := ""
  updated_at : String := ""
deriving Repr, DecidableEq

/-- State of the SQLite database file: the rows of both tables plus the
AUTOINCREMENT counters (SQLite assigns ids 1, 2, ... and, with
AUTOINCREMENT, never reuses an id after a delete). -/
structure TrackerState where
  apps : List JobApplication := []
  interviews : List Interview := []
  next_app_id : Nat := 1
  next_interview_id : Nat := 1
deriving Repr, DecidableEq

/-- Insertion step of the sorting routine used to model SQL ORDER BY:
places a in front of the first element b with le a b. -/
def insertBy (le : α → α → Bool) (a : α) : List α → List α
  | [] => [a]
  | b :: t => if le a b then a :: b :: t else b :: insertBy le a t

/-- Stable insertion sort modelling SQL ORDER BY: the result is a
permutation of the input, sorted under le. -/
def sortBy (le : α → α → Bool) : List α → List α
  | [] => []
  | a :: t => insertBy le a (sortBy le t)

/-- Tests whether p is a leading segment of s (character lists). -/
def startsWithChars : List Char → List Char → Bool
  | _, [] => true
  | [], _ :: _ => false
  | c :: s, d :: p => c == d && startsWithChars s p

/-- Tests whether p occurs contiguously inside s (character lists):
the semantics of SQL `LIKE '%p%'` once both sides are lower-cased. -/
def containsChars : List Char → List Char → Bool
  | [], p => startsWithChars [] p
  | c :: t, p => startsWithChars (c :: t) p || containsChars t p

/-- ASCII lower-casing of a string, character by character.  SQLite's
LIKE is case-insensitive exactly on the ASCII range, which is also the
range Char.toLower folds. -/
def lowerAscii (s : String) : List Char :=
  s.data.map Char.toLower

/-- All suffixes of a character list, longest first, ending in []. -/
def tails : List Char → List (List Char)
  | [] => [[]]
  | c :: t => (c :: t) :: tails t

/-- SQL LIKE pattern matching (no ESCAPE clause): in the pattern, the
percent character matches any sequence of zero or more characters
(modelled by trying every suffix of the text) and the underscore
character matches exactly one character; every other pattern character
matches only itself.  Both sides are expected to be already
case-folded. -/
def likeMatch : List Char → List Char → Bool
  | [], t => t.isEmpty
  | p :: ps, t =>
      if p == '%' then (tails t).any (fun t2 => likeMatch ps t2)
      else
        match t with
        | [] => false
        | c :: ts => (p == '_' || p == c) && likeMatch ps ts

/-- LIKE pattern the module builds for the company filter: Python
interpolates the filter into the string f-string pattern
percent-company-percent before binding it to `company LIKE ?`, so a
percent or underscore inside the filter itself acts as a wildcard. -/
def likePattern (company : String) : List Char :=
  '%' :: (lowerAscii company ++ ['%'])

/-- Lexicographic order on character lists by code point.  SQLite's
default BINARY collation compares TEXT values byte by byte, which on
UTF-8 encoded strings coincides with code-point order. -/
def charsLe : List Char → List Char → Bool
  | [], _ => true
  | _ :: _, [] => false
  | a :: s, b :: t =>
      if a.toNat < b.toNat then true
      else if b.toNat < a.toNat then false
      else charsLe s t

/-- BINARY-collation comparison of two TEXT values. -/
def strLe (a b : String) : Bool := charsLe a.data b.data

/-- Comparator for ORDER BY application_date DESC. -/
def dateDesc (a b : JobApplication) : Bool :=
  strLe b.application_date a.application_date

/-- Comparator for ORDER BY follow_up_date ASC. -/
def followUpAsc (a b : JobApplication) : Bool :=
  strLe a.follow_up_date b.follow_up_date

/-- Comparator for ORDER BY interview_date DESC on interviews. -/
def ivDateDesc (a b : Interview) : Bool :=
  strLe b.interview_date a.interview_date

/-- JobTracker.add_application (lines 136-182): stamps created_at and
updated_at with the current time, inserts the row, and returns the
id SQLite assigned (cursor.lastrowid).  The id field of the argument is
ignored: the INSERT statement does not mention the id column. -/
def addApplication (st : TrackerState) (a : JobApplication) (now : String) :
    TrackerState × Nat :=
  let stored : JobApplication :=
    { a with id := st.next_app_id, created_at := now, updated_at := now }
  ({ st with apps := st.apps ++ [stored], next_app_id := st.next_app_id + 1 },
   st.next_app_id)

/-- JobTracker.get_application (lines 184-207): SELECT * WHERE id = ?,
fetchone; returns None when no row matches. -/
def getApplication (st : TrackerState) (application_id : Nat) :
    Option JobApplication :=
  st.apps.find? (fun a => a.id == application_id)

/-- JobTracker.get_applications (lines 209-247).  Python's status and
company parameters default to None and are tested for truthiness
(`if status:`), so None and the empty string behave identically; the
embedding uses `""` for both.  A truthy status adds an exact-equality
condition; a truthy company adds `company LIKE ?` bound to the pattern
percent-company-percent, which SQLite evaluates with full LIKE wildcard
semantics (percent and underscore inside the filter are wildcards) and
case-insensitively for ASCII (modelled by lower-casing both sides with
Char.toLower, which folds exactly the ASCII range).  Results are
ordered by application_date descending and capped at limit
(default 50). -/
def getApplications (st : TrackerState) (status : String := "")
    (company : String := "") (limit : Nat := 50) : List JobApplication :=
  let keep := fun (a : JobApplication) =>
    (status == "" || a.status == status)
    && (company == "" || likeMatch (likePattern company) (lowerAscii a.company))
  ((sortBy dateDesc (st.apps.filter keep)).take limit)

/-- Fields of the job_applications table that a partial update may name.
Python's update_application takes a dict of column names to values; the
dict always receives an updated_at entry before the UPDATE is built, so
a caller-supplied updated_at value is overwritten.  The embedding
represents the dict as one Option per column (none = key absent). -/
structure AppUpdates where
  id : Option Nat := none
  company : Option String := none
  position : Option String := none
  location : Option String := none
  job_url : Option String := none
  job_description : Option String := none
  application_date : Option String := none
  status : Option String := none
  priority : Option String := none
  salary_range : Option String := none
  notes : Option String := none
  recruiter_name : Option String := none
  recruiter_email : Option String := none
  follow_up_date : Option String := none
  interview_date : Option String := none
  interview_type : Option String := none
  interview_notes : Option String := none
  rejection_reason : Option String := none
  offer_amount : Option String := none
  created_at : Option String := none
  updated_at : Option String := none
deriving Repr, DecidableEq

/-- Effect of `UPDATE job_applications SET k1 = v1, ... WHERE id = ?` on
the matched row: every column named in the dict takes its new value, and
updated_at always takes the current time because update_application
writes updates['updated_at'] = now before building the query. -/
def applyUpdates (u : AppUpdates) (a : JobApplication) (now : String) :
    JobApplication :=
  { id := u.id.getD a.id
    company := u.company.getD a.company
    position := u.position.getD a.position
    location := u.location.getD a.location
    job_url := u.job_url.getD a.job_url
    job_description := u.job_description.getD a.job_description
    application_date := u.application_date.getD a.application_date
    status := u.status.getD a.status
    priority := u.priority.getD a.priority
    salary_range := u.salary_range.getD a.salary_range
    notes := u.notes.getD a.notes
    recruiter_name := u.recruiter_name.getD a.recruiter_name
    recruiter_email := u.recruiter_email.getD a.recruiter_email
    follow_up_date := u.follow_up_date.getD a.follow_up_date
    interview_date := u.interview_date.getD a.interview_date
    interview_type := u.interview_type.getD a.interview_type
    interview_notes := u.interview_notes.getD a.interview_notes
    rejection_reason := u.rejection_reason.getD a.rejection_reason
    offer_amount := u.offer_amount.getD a.offer_amount
    created_at := u.created_at.getD a.created_at
    updated_at := now }

/-- Condition under which the UPDATE raises a primary-key violation:
the WHERE clause matches a row, the dict names the id column with a new
value, and another row already carries that value.  update_application
catches the exception and returns False; the transaction is rolled
back, so the state is unchanged. -/
def idConflict (st : TrackerState) (application_id : Nat) (u : AppUpdates) :
    Prop :=
  match u.id with
  | some n =>
      n ≠ application_id
      ∧ st.apps.any (fun a => a.id == application_id)
      ∧ st.apps.any (fun a => a.id == n)
  | none => False

instance (st : TrackerState) (application_id : Nat) (u : AppUpdates) :
    Decidable (idConflict st application_id u) := by
  unfold idConflict
  cases u.id <;> infer_instance

/-- JobTracker.update_application (lines 249-283): builds
`UPDATE ... SET ... WHERE id = ?`, commits, and returns
cursor.rowcount > 0; on an exception it logs and returns False. -/
def updateApplication (st : TrackerState) (application_id : Nat)
    (u : AppUpdates) (now : String) : TrackerState × Bool :=
  if idConflict st application_id u then (st, false)
  else if st.apps.any (fun a => a.id == application_id) then
    ({ st with
        apps := st.apps.map (fun a =>
          if a.id == application_id then applyUpdates u a now else a) },
     true)
  else (st, false)

/-- JobTracker.delete_application (lines 285-314): deletes the interviews
whose application_id matches, then the application row, and returns
whether the second DELETE affected a row (cursor.rowcount is that of the
last execute). -/
def deleteApplication (st : TrackerState) (application_id : Nat) :
    TrackerState × Bool :=
  ({ st with
      apps := st.apps.filter (fun a => !(a.id == application_id))
      interviews :=
        st.interviews.filter (fun iv => !(iv.application_id == application_id)) },
   st.apps.any (fun a => a.id == application_id))

/-- JobTracker.add_interview (lines 316-358): stamps timestamps, inserts,
returns the assigned id. -/
def addInterview (st : TrackerState) (iv : Interview) (now : String) :
    TrackerState × Nat :=
  let stored : Interview :=
    { iv with id := st.next_interview_id, created_at := now, updated_at := now }
  ({ st with interviews := st.interviews ++ [stored],
             next_interview_id := st.next_interview_id + 1 },
   st.next_interview_id)

/-- JobTracker.get_interviews (lines 360-385).  The application_id
parameter defaults to None and is tested for truthiness, so None and 0
behave identically (modelled as 0): a falsy value selects every
interview; a truthy value filters on application_id.  Either way the
result is ordered by interview_date descending. -/
def getInterviews (st : TrackerState) (application_id : Nat := 0) :
    List Interview :=
  if application_id ≠ 0 then
    sortBy ivDateDesc
      (st.interviews.filter (fun iv => iv.application_id == application_id))
  else
    sortBy ivDateDesc st.interviews

/-- First occurrences of the values of a list, in order of appearance:
the distinct group keys a SQL GROUP BY produces. -/
def distinctKeys : List String → List String
  | [] => []
  | k :: t => k :: (distinctKeys t).filter (fun x => !(x == k))

/-- Comparator for ascending string order (the order in which SQLite
emits GROUP BY groups when scanning an index or a sorter). -/
def strAsc (a b : String) : Bool := strLe a b

/-- Result of `SELECT key, COUNT(*) ... GROUP BY key`: one pair per
distinct key, in ascending key order, carrying the number of rows whose
key matches. -/
def countsBy (key : JobApplication → String) (l : List JobApplication) :
    List (String × Nat) :=
  (sortBy strAsc (distinctKeys (l.map key))).map
    (fun k => (k, l.countP (fun a => key a == k)))

/-- Python dict.get(k, 0) over an association list whose keys are
unique. -/
def lookupD (m : List (String × Nat)) (k : String) : Nat :=
  ((m.find? (fun p => p.1 == k)).map (fun p => p.2)).getD 0

/-- Comparator for ORDER BY COUNT(*) DESC on grouped pairs. -/
def countDesc (p q : String × Nat) : Bool := q.2 ≤ p.2

/-- Comparator for ORDER BY month DESC on grouped pairs. -/
def keyDesc (p q : String × Nat) : Bool := strLe q.1 p.1

/-- Rounding half to even, the behaviour of Python's built-in round on
an exactly-representable value. -/
def roundHalfEven (q : ℚ) : ℤ :=
  if q - ⌊q⌋ < 1 / 2 then ⌊q⌋
  else if 1 / 2 < q - ⌊q⌋ then ⌊q⌋ + 1
  else if ⌊q⌋ % 2 = 0 then ⌊q⌋ else ⌊q⌋ + 1

/-- Python round(x, 2): round to two decimal places. -/
def round2 (q : ℚ) : ℚ := (roundHalfEven (q * 100) : ℚ) / 100

/-- Month key `strftime('%Y-%m', application_date)`: for the
YYYY-MM-DD date strings the module stores, the first seven
characters. -/
def monthKey (a : JobApplication) : String :=
  ⟨a.application_date.data.take 7⟩

/-- Return value of JobTracker.get_statistics. -/
structure Statistics where
  total_applications : Nat
  status_counts : List (String × Nat)
  company_counts : List (String × Nat)
  monthly_counts : List (String × Nat)
  total_interviews : Nat
  response_rate : ℚ
deriving DecidableEq

/-- JobTracker.get_statistics (lines 387-439): COUNT(*) of both tables,
counts grouped by status, by company (ORDER BY COUNT(*) DESC LIMIT 10)
and by month of application_date (ORDER BY month DESC LIMIT 12), and the
response rate (responded statuses over total, as a percentage, 0 when
the table is empty) rounded to two decimals. -/
def getStatistics (st : TrackerState) : Statistics :=
  let total := st.apps.length
  let status_counts := countsBy (fun a => a.status) st.apps
  let company_counts :=
    ((sortBy countDesc (countsBy (fun a => a.company) st.apps)).take 10)
  let monthly_counts :=
    ((sortBy keyDesc (countsBy monthKey st.apps)).take 12)
  let responded :=
    lookupD status_counts "interview_scheduled"
    + lookupD status_counts "rejected"
    + lookupD status_counts "offer_received"
  let rate : ℚ :=
    if 0 < total then (responded : ℚ) / (total : ℚ) * 100 else 0
  { total_applications := total
    status_counts := status_counts
    company_counts := company_counts
    monthly_counts := monthly_counts
    total_interviews := st.interviews.length
    response_rate := round2 rate }

/-- JobTracker.get_follow_up_reminders (lines 441-470): rows whose
follow_up_date is at most the cutoff date that SQLite computes as
`date('now', '+N days')`, with status applied or under_review, ordered
by follow_up_date ascending.  The cutoff is passed explicitly because
the current date is an implicit input of the Python code.  The SQL also
tests `follow_up_date IS NOT NULL`; the rows the module writes always
store a string (possibly empty) in that TEXT column, so the test holds
for every row of the model. -/
def getFollowUpReminders (st : TrackerState) (cutoff : String) :
    List JobApplication :=
  sortBy followUpAsc
    (st.apps.filter (fun a =>
      strLe a.follow_up_date cutoff
      && (a.status == "applied" || a.status == "under_review")))

/-- Public operations of the JobTracker class. -/
inductive TrackerOp
  | initDatabase
  | addApplication
  | getApplication
  | getApplications
  | updateApplication
  | deleteApplication
  | addInterview
  | getInterviews
  | getStatistics
  | getFollowUpReminders
deriving DecidableEq, Repr

/-- What a method's except-block does with a store-layer exception. -/
inductive ExcOutcome
  | convertedToDefault
  | reraised
deriving DecidableEq, Repr

/-- Except-block behaviour of each method, transcribed from the source:
init_database (line 134), add_application (line 182) and add_interview
(line 358) log the error and re-raise; every other method logs and
returns a safe default (None, an empty list, an empty dict, or
False). -/
def onStoreError : TrackerOp → ExcOutcome
  | .initDatabase => .reraised
  | .addApplication => .reraised
  | .addInterview => .reraised
  | _ => .convertedToDefault

/-- Sequence of add_application calls within one session: returns the
final state and the list of ids the calls returned, in call order. -/
def addAll (st : TrackerState) : List (JobApplication × String) →
    TrackerState × List Nat
  | [] => (st, [])
  | (a, now) :: rest =>
      let r := addApplication st a now
      let rr := addAll r.1 rest
      (rr.1, r.2 :: rr.2)

/-- Example application mirroring the sample record in the module's own
main() function. -/
def exApp1 : JobApplication :=
  { company := "Google", position := "Senior Data Engineer",
    application_date := "2024-01-15", status := "applied",
    follow_up_date := "2024-01-22" }

/-- Second example application. -/
def exApp2 : JobApplication :=
  { company := "Meta", position := "Data Engineer",
    application_date := "2024-02-01", status := "rejected",
    follow_up_date := "2024-02-08" }

/-- Example interview tied to application 1. -/
def exIv1 : Interview :=
  { application_id := 1, interview_date := "2024-01-25",
    interview_type := "phone" }

/-- Example store state: two applications and one interview, built
through the insert operations from a fresh database. -/
def exState : TrackerState :=
  (addInterview
    ((addApplication
      ((addApplication {} exApp1 "2024-01-15T09:00:00").1)
      exApp2 "2024-02-01T09:00:00").1)
    exIv1 "2024-02-02T09:00:00").1

/-- Eleven applications at eleven distinct companies. -/
def elevenApps : List JobApplication :=
  [{ company := "c01", application_date := "2024-01-01" },
   { company := "c02", application_date := "2024-01-01" },
   { company := "c03", application_date := "2024-01-01" },
   { company := "c04", application_date := "2024-01-01" },
   { company := "c05", application_date := "2024-01-01" },
   { company := "c06", application_date := "2024-01-01" },
   { company := "c07", application_date := "2024-01-01" },
   { company := "c08", application_date := "2024-01-01" },
   { company := "c09", application_date := "2024-01-01" },
   { company := "c10", application_date := "2024-01-01" },
   { company := "c11", application_date := "2024-01-01" }]

/-- Store state holding the eleven applications above. -/
def elevenState : TrackerState :=
  (addAll {} (elevenApps.map (fun a => (a, "2024-01-01T09:00:00")))).1

/-- Store state holding one application whose company name is matched
by the wildcard-bearing filter a-percent-b without containing it as a
literal substring. -/
def wildcardState : TrackerState :=
  (addApplication {}
    { company := "axb", application_date := "2024-03-01" }
    "2024-03-01T09:00:00").1

/-- Update mapping that names only the id column. -/
def updIdFive : AppUpdates := { id := some 5 }

/-- Update mapping that names only the status column. -/
def updStatusInterview : AppUpdates := { status := some "interview_scheduled" }

/-- Unfolding equation of charsLe on two nonempty lists. -/
theorem charsLe_cons (a b : Char) (s t : List Char) :
    charsLe (a :: s) (b :: t)
      = (if a.toNat < b.toNat then true
         else if b.toNat < a.toNat then false
         else charsLe s t) := rfl

/-- Totality of the BINARY-collation order. -/
theorem charsLe_total : ∀ s t : List Char, (charsLe s t || charsLe t s) = true
  | [], t => by simp [charsLe]
  | a :: s, [] => by simp [charsLe]
  | a :: s, b :: t => by
      rw [charsLe_cons, charsLe_cons]
      rcases Nat.lt_trichotomy a.toNat b.toNat with h | h | h
      · simp [h]
      · simp [show ¬ a.toNat < b.toNat from by omega,
              show ¬ b.toNat < a.toNat from by omega]
        simpa using charsLe_total s t
      · simp [h]

/-- Transitivity of the BINARY-collation order. -/
theorem charsLe_trans : ∀ s t u : List Char,
    charsLe s t = true → charsLe t u = true → charsLe s u = true
  | [], _, u, _, _ => by simp [charsLe]
  | a :: s, [], _, h1, _ => by simp [charsLe] at h1
  | a :: s, b :: t, [], _, h2 => by simp [charsLe] at h2
  | a :: s, b :: t, c :: u, h1, h2 => by
      rw [charsLe_cons] at h1 h2 ⊢
      rcases Nat.lt_trichotomy a.toNat b.toNat with hab | hab | hab
      · rcases Nat.lt_trichotomy b.toNat c.toNat with hbc | hbc | hbc
        · simp [show a.toNat < c.toNat from by omega]
        · simp [show a.toNat < c.toNat from by omega]
        · simp [show ¬ b.toNat < c.toNat from by omega, hbc] at h2
      · rcases Nat.lt_trichotomy b.toNat c.toNat with hbc | hbc | hbc
        · simp [show a.toNat < c.toNat from by omega]
        · have h1' : charsLe s t = true := by
            simpa [show ¬ a.toNat < b.toNat from by omega,
                   show ¬ b.toNat < a.toNat from by omega] using h1
          have h2' : charsLe t u = true := by
            simpa [show ¬ b.toNat < c.toNat from by omega,
                   show ¬ c.toNat < b.toNat from by omega] using h2
          simp [show ¬ a.toNat < c.toNat from by omega,
                show ¬ c.toNat < a.toNat from by omega,
                charsLe_trans s t u h1' h2']
        · simp [show ¬ b.toNat < c.toNat from by omega, hbc] at h2
      · simp [show ¬ a.toNat < b.toNat from by omega, hab] at h1

/-- Totality of strLe. -/
theorem strLe_total (a b : String) : (strLe a b || strLe b a) = true :=
  charsLe_total a.data b.data

/-- Transitivity of strLe. -/
theorem strLe_trans {a b c : String} (h1 : strLe a b = true)
    (h2 : strLe b c = true) : strLe a c = true :=
  charsLe_trans a.data b.data c.data h1 h2

/-- Insertion produces a permutation of consing. -/
theorem perm_insertBy (le : α → α → Bool) (a : α) :
    ∀ l : List α, (insertBy le a l).Perm (a :: l)
  | [] => List.Perm.refl _
  | b :: t => by
      unfold insertBy
      split
      · exact List.Perm.refl _
      · exact ((perm_insertBy le a t).cons b).trans (List.Perm.swap a b t)

/-- Sorting produces a permutation of the input. -/
theorem perm_sortBy (le : α → α → Bool) :
    ∀ l : List α, (sortBy le l).Perm l
  | [] => List.Perm.refl _
  | a :: t =>
      (perm_insertBy le a (sortBy le t)).trans ((perm_sortBy le t).cons a)

/-- Membership is preserved by the sort. -/
theorem mem_sortBy {le : α → α → Bool} {x : α} {l : List α} :
    x ∈ sortBy le l ↔ x ∈ l :=
  (perm_sortBy le l).mem_iff

/-- Length is preserved by the sort. -/
theorem length_sortBy (le : α → α → Bool) (l : List α) :
    (sortBy le l).length = l.length :=
  (perm_sortBy le l).length_eq

/-- Inserting into a sorted list keeps it sorted, for a total and
transitive comparator. -/
theorem pairwise_insertBy {le : α → α → Bool}
    (htr : ∀ a b c, le a b = true → le b c = true → le a c = true)
    (hto : ∀ a b, (le a b || le b a) = true) (a : α) :
    ∀ {l : List α}, l.Pairwise (fun x y => le x y = true) →
      (insertBy le a l).Pairwise (fun x y => le x y = true)
  | [], _ => by simp [insertBy]
  | b :: t, h => by
      unfold insertBy
      split
      case isTrue hab =>
        refine List.Pairwise.cons ?_ h
        intro x hx
        rcases List.mem_cons.mp hx with rfl | hx
        · exact hab
        · exact htr a b x hab (List.rel_of_pairwise_cons h hx)
      case isFalse hab =>
        have hba : le b a = true := by
          have := hto a b
          simp [Bool.or_eq_true] at this
          rcases this with h1 | h1
          · exact absurd h1 hab
          · exact h1
        refine List.Pairwise.cons ?_ (pairwise_insertBy htr hto a h.tail)
        intro x hx
        rcases List.mem_cons.mp ((perm_insertBy le a t).mem_iff.mp hx) with rfl | hx2
        · exact hba
        · exact List.rel_of_pairwise_cons h hx2

/-- Sorting with a total and transitive comparator sorts. -/
theorem pairwise_sortBy {le : α → α → Bool}
    (htr : ∀ a b c, le a b = true → le b c = true → le a c = true)
    (hto : ∀ a b, (le a b || le b a) = true) :
    ∀ l : List α, (sortBy le l).Pairwise (fun x y => le x y = true)
  | [] => List.Pairwise.nil
  | a :: t => pairwise_insertBy htr hto a (pairwise_sortBy htr hto t)

/-- Equality test on characters is symmetric. -/
theorem charBeq_comm (a b : Char) : (a == b) = (b == a) := by
  by_cases h : a = b
  · rw [h]
  · have h2 : ¬ b = a := fun hh => h hh.symm
    rw [beq_eq_false_iff_ne.mpr h, beq_eq_false_iff_ne.mpr h2]

/-- Unfolding equation of likeMatch for a leading percent wildcard. -/
theorem likeMatch_pct (ps t : List Char) :
    likeMatch ('%' :: ps) t = (tails t).any (fun t2 => likeMatch ps t2) := by
  simp [likeMatch]

/-- Unfolding equation of likeMatch for a non-percent pattern head and
empty text. -/
theorem likeMatch_lit_nil (p : Char) (ps : List Char)
    (hp : (p == '%') = false) : likeMatch (p :: ps) [] = false := by
  simp [likeMatch, hp]

/-- Unfolding equation of likeMatch for a non-percent pattern head and
nonempty text. -/
theorem likeMatch_lit_cons (p : Char) (ps : List Char) (c : Char)
    (ts : List Char) (hp : (p == '%') = false) :
    likeMatch (p :: ps) (c :: ts)
      = ((p == '_' || p == c) && likeMatch ps ts) := by
  simp [likeMatch, hp]

/-- Every list is its own longest suffix. -/
theorem self_mem_tails : ∀ s : List Char, s ∈ tails s
  | [] => List.mem_singleton.mpr rfl
  | _ :: _ => List.mem_cons_self _ _

/-- The empty list is a suffix of every list. -/
theorem nil_mem_tails : ∀ s : List Char, [] ∈ tails s
  | [] => List.mem_singleton.mpr rfl
  | _ :: t => List.mem_cons_of_mem _ (nil_mem_tails t)

/-- Substring containment is a search for a prefix among the
suffixes. -/
theorem containsChars_eq_any_tails : ∀ s p : List Char,
    containsChars s p = (tails s).any (fun t => startsWithChars t p)
  | [], p => by simp [containsChars, tails]
  | c :: t, p => by
      simp only [containsChars, tails, List.any_cons]
      rw [containsChars_eq_any_tails t p]

/-- A text starting with the literal pattern matches
pattern-then-percent: every pattern character matches itself under
LIKE. -/
theorem startsWith_implies_like : ∀ (pat t : List Char),
    startsWithChars t pat = true → likeMatch (pat ++ ['%']) t = true
  | [], t, _ => by
      rw [List.nil_append, likeMatch_pct]
      exact List.any_eq_true.mpr ⟨[], nil_mem_tails t, by simp [likeMatch]⟩
  | p :: ps, t, h => by
      cases t with
      | nil => simp [startsWithChars] at h
      | cons c ts =>
          have h' : (c == p) = true ∧ startsWithChars ts ps = true := by
            simpa [startsWithChars, Bool.and_eq_true] using h
          by_cases hp : p = '%'
          · subst hp
            rw [List.cons_append, likeMatch_pct]
            exact List.any_eq_true.mpr ⟨ts,
              List.mem_cons_of_mem _ (self_mem_tails ts),
              startsWith_implies_like ps ts h'.2⟩
          · have hpf : (p == '%') = false := beq_eq_false_iff_ne.mpr hp
            rw [List.cons_append, likeMatch_lit_cons _ _ _ _ hpf,
                (charBeq_comm p c).trans h'.1, Bool.or_true, Bool.true_and]
            exact startsWith_implies_like ps ts h'.2

/-- Literal substring containment implies a LIKE percent-pattern-percent
match, whatever characters the pattern holds. -/
theorem likeMatch_of_containsChars (pat s : List Char)
    (h : containsChars s pat = true) :
    likeMatch ('%' :: (pat ++ ['%'])) s = true := by
  rw [likeMatch_pct]
  rw [containsChars_eq_any_tails] at h
  rcases List.any_eq_true.mp h with ⟨t2, ht2, hsw⟩
  exact List.any_eq_true.mpr ⟨t2, ht2, startsWith_implies_like pat t2 hsw⟩

/-- For a pattern free of percent and underscore,
pattern-then-percent matches exactly the texts starting with the
literal pattern. -/
theorem likeMatch_tail_eq : ∀ (pat : List Char),
    ('%' : Char) ∉ pat → ('_' : Char) ∉ pat →
    ∀ t, likeMatch (pat ++ ['%']) t = startsWithChars t pat
  | [], _, _, t => by
      rw [List.nil_append, likeMatch_pct,
          List.any_eq_true.mpr ⟨[], nil_mem_tails t, by simp [likeMatch]⟩]
      cases t <;> rfl
  | p :: ps, h1, h2, t => by
      rw [List.mem_cons, not_or] at h1 h2
      have hpf : (p == '%') = false :=
        beq_eq_false_iff_ne.mpr (fun hh => h1.1 hh.symm)
      have hpu : (p == '_') = false :=
        beq_eq_false_iff_ne.mpr (fun hh => h2.1 hh.symm)
      cases t with
      | nil =>
          rw [List.cons_append, likeMatch_lit_nil _ _ hpf]
          rfl
      | cons c ts =>
          rw [List.cons_append, likeMatch_lit_cons _ _ _ _ hpf, hpu,
              Bool.false_or, likeMatch_tail_eq ps h1.2 h2.2 ts,
              charBeq_comm p c]
          rfl

/-- For a filter free of wildcard characters, the LIKE
percent-filter-percent match coincides with literal substring
containment. -/
theorem likeMatch_literal (pat : List Char) (h1 : ('%' : Char) ∉ pat)
    (h2 : ('_' : Char) ∉ pat) (s : List Char) :
    likeMatch ('%' :: (pat ++ ['%'])) s = containsChars s pat := by
  rw [likeMatch_pct, containsChars_eq_any_tails]
  rw [show (fun t2 => likeMatch (pat ++ ['%']) t2)
      = (fun t2 => startsWithChars t2 pat) from
    funext (likeMatch_tail_eq pat h1 h2)]

/-- distinctKeys keeps exactly the values of the list. -/
theorem mem_distinctKeys : ∀ {l : List String} {k : String},
    k ∈ distinctKeys l ↔ k ∈ l
  | [], k => by simp [distinctKeys]
  | a :: t, k => by
      by_cases hk : k = a
      · subst hk
        simp [distinctKeys]
      · simp only [distinctKeys, List.mem_cons, List.mem_filter,
          mem_distinctKeys (l := t)]
        simp [hk]

/-- distinctKeys has no duplicates. -/
theorem nodup_distinctKeys : ∀ l : List String, (distinctKeys l).Nodup
  | [] => List.nodup_nil
  | a :: t => by
      refine List.Nodup.cons ?_ ((nodup_distinctKeys t).filter _)
      intro ha
      have := (List.mem_filter.mp ha).2
      simp at this

/-- find? over key-count pairs built from a key list. -/
theorem find?_pairs (c : String → Nat) (s : String) :
    ∀ keys : List String,
      (keys.map (fun k => (k, c k))).find? (fun p => p.1 == s)
        = (keys.find? (fun k => k == s)).map (fun k => (k, c k))
  | [] => rfl
  | a :: t => by
      by_cases h : a = s
      · subst h
        simp [List.find?]
      · simp only [List.map_cons, List.find?]
        rw [show ((a, c a).1 == s) = false from by simp [h]]
        exact find?_pairs c s t

/-- find? with an equality test returns the sought value when present. -/
theorem find?_beq_of_mem {s : String} :
    ∀ {keys : List String}, s ∈ keys →
      keys.find? (fun k => k == s) = some s
  | [], h => by simp at h
  | a :: t, h => by
      by_cases ha : a = s
      · subst ha
        simp [List.find?]
      · have ht : s ∈ t := by
          rcases List.mem_cons.mp h with h1 | h1
          · exact absurd h1.symm ha
          · exact h1
        simp only [List.find?]
        rw [show (a == s) = false from by simp [ha]]
        exact find?_beq_of_mem ht

/-- lookupD over the GROUP BY model returns the exact number of rows
whose key matches. -/
theorem lookupD_countsBy (key : JobApplication → String)
    (l : List JobApplication) (s : String) :
    lookupD (countsBy key l) s = l.countP (fun a => key a == s) := by
  unfold lookupD countsBy
  rw [find?_pairs]
  by_cases h : s ∈ sortBy strAsc (distinctKeys (l.map key))
  · rw [find?_beq_of_mem h]
    rfl
  · rw [List.find?_eq_none.mpr ?_]
    · have hs : s ∉ l.map key := fun hmem =>
        h (mem_sortBy.mpr (mem_distinctKeys.mpr hmem))
      have : l.countP (fun a => key a == s) = 0 := by
        rw [List.countP_eq_zero]
        intro a ha hcon
        exact hs (List.mem_map.mpr ⟨a, ha, by simpa using hcon⟩)
      simp [this]
    · intro x hx hcon
      have : x = s := by simpa using hcon
      exact h (this ▸ hx)

/-- countP distributes over a disjunction of mutually exclusive
predicates. -/
theorem countP_or_disjoint (p q : JobApplication → Bool)
    (h : ∀ a, ¬(p a = true ∧ q a = true)) :
    ∀ l : List JobApplication,
      l.countP (fun a => p a || q a) = l.countP p + l.countP q
  | [] => rfl
  | a :: t => by
      by_cases hp : p a = true
      · have hq : q a = false := by
          cases hqa : q a
          · rfl
          · exact absurd ⟨hp, hqa⟩ (h a)
        simp [List.countP_cons, hp, hq, countP_or_disjoint p q h t]
        omega
      · have hp' : p a = false := by
          cases hpa : p a
          · rfl
          · exact absurd hpa hp
        by_cases hq : q a = true
        · simp [List.countP_cons, hp', hq, countP_or_disjoint p q h t]
          omega
        · have hq' : q a = false := by
            cases hqa : q a
            · rfl
            · exact absurd hqa hq
          simp [List.countP_cons, hp', hq', countP_or_disjoint p q h t]

/-- Rounding zero to two decimals yields zero. -/
theorem round2_zero : round2 0 = 0 := by
  unfold round2 roundHalfEven
  norm_num

/-- The ids a sequence of add_application calls returns are consecutive
integers starting at the session's current counter. -/
theorem addAll_ids : ∀ (calls : List (JobApplication × String))
    (st : TrackerState),
    (addAll st calls).2 = List.range' st.next_app_id calls.length
  | [], st => rfl
  | (a, now) :: rest, st => by
      simp only [addAll, addApplication, List.length_cons, List.range']
      exact congrArg _ (addAll_ids rest _)

/-- C1: deleting an application removes its record and every interview
record whose application_id equals that identifier; afterwards
get_application for the identifier returns None and get_interviews for
it returns the empty list.  The hypothesis excludes identifier 0: SQLite
assigns application identifiers starting from 1, and get_interviews
treats a falsy argument as "no filter" rather than as an identifier. -/
theorem delete_cascades (st : TrackerState) (aid : Nat) (h : aid ≠ 0) :
    getApplication (deleteApplication st aid).1 aid = none
    ∧ getInterviews (deleteApplication st aid).1 aid = []
    ∧ (∀ a ∈ (deleteApplication st aid).1.apps, a.id ≠ aid)
    ∧ (∀ iv ∈ (deleteApplication st aid).1.interviews,
        iv.application_id ≠ aid) := by
  refine ⟨?_, ?_, ?_, ?_⟩
  · unfold getApplication deleteApplication
    rw [List.find?_eq_none]
    intro a ha hcon
    have := (List.mem_filter.mp ha).2
    simp at this hcon
    exact this hcon
  · unfold getInterviews deleteApplication
    rw [if_pos h]
    have hnil : ((st.interviews.filter
        (fun iv => !(iv.application_id == aid))).filter
        (fun iv => iv.application_id == aid)) = [] := by
      rw [List.filter_eq_nil_iff]
      intro iv hiv hcon
      have := (List.mem_filter.mp hiv).2
      simp at this hcon
      exact this hcon
    rw [hnil]
    rfl
  · intro a ha
    have := (List.mem_filter.mp ha).2
    simpa using this
  · intro iv hiv
    have := (List.mem_filter.mp hiv).2
    simpa using this

/-- Witness for C1 at a concrete store: deleting application 1 from the
example state (two applications, one interview owned by 1). -/
theorem delete_cascades_witness :
    (1 : Nat) ≠ 0
    ∧ (getApplication (deleteApplication exState 1).1 1 = none
      ∧ getInterviews (deleteApplication exState 1).1 1 = []
      ∧ (∀ a ∈ (deleteApplication exState 1).1.apps, a.id ≠ 1)
      ∧ (∀ iv ∈ (deleteApplication exState 1).1.interviews,
          iv.application_id ≠ 1)) :=
  ⟨by decide, delete_cascades exState 1 (by decide)⟩

/-- C3: the follow-up query returns exactly the stored applications
whose status is applied or under_review and whose follow_up_date is at
most the cutoff date (the SQL value of now + N days, N defaulting to 7),
ordered ascending by follow_up_date. -/
theorem follow_up_exact (st : TrackerState) (cutoff : String) :
    (∀ a, a ∈ getFollowUpReminders st cutoff ↔
        a ∈ st.apps
        ∧ (a.status = "applied" ∨ a.status = "under_review")
        ∧ strLe a.follow_up_date cutoff = true)
    ∧ (getFollowUpReminders st cutoff).Pairwise
        (fun x y => followUpAsc x y = true) := by
  constructor
  · intro a
    unfold getFollowUpReminders
    rw [mem_sortBy, List.mem_filter]
    simp only [Bool.and_eq_true, Bool.or_eq_true, beq_iff_eq]
    tauto
  · exact @pairwise_sortBy JobApplication followUpAsc
      (fun a b c h1 h2 => strLe_trans h1 h2)
      (fun a b => strLe_total _ _) _

/-- C5 counterexample: it is false that every operation converts
store-layer exceptions into a default result: add_application's
except-block re-raises (job_tracker.py line 182), as do add_interview's
and init_database's. -/
theorem exceptions_not_all_converted :
    ¬ ∀ op : TrackerOp, onStoreError op = ExcOutcome.convertedToDefault := by
  intro h
  have := h TrackerOp.addApplication
  simp [onStoreError] at this

/-- C5 amended: every operation other than init_database,
add_application and add_interview converts a store-layer exception into
an empty result or a boolean failure flag; those three log and
re-raise. -/
theorem exceptions_converted_outside_inserts (op : TrackerOp)
    (h1 : op ≠ TrackerOp.initDatabase)
    (h2 : op ≠ TrackerOp.addApplication)
    (h3 : op ≠ TrackerOp.addInterview) :
    onStoreError op = ExcOutcome.convertedToDefault := by
  cases op <;>
    first
      | rfl
      | exact absurd rfl h1
      | exact absurd rfl h2
      | exact absurd rfl h3

/-- Witness for the amended C5 at the statistics operation. -/
theorem exceptions_converted_witness :
    TrackerOp.getStatistics ≠ TrackerOp.initDatabase
    ∧ TrackerOp.getStatistics ≠ TrackerOp.addApplication
    ∧ TrackerOp.getStatistics ≠ TrackerOp.addInterview
    ∧ onStoreError TrackerOp.getStatistics = ExcOutcome.convertedToDefault :=
  ⟨by decide, by decide, by decide,
   exceptions_converted_outside_inserts TrackerOp.getStatistics
     (by decide) (by decide) (by decide)⟩

/-- C6: every successful add_application call returns the identifier of
the record it inserted, and across any sequence of calls in one session
the returned identifiers are distinct and monotonically
non-decreasing (in fact strictly increasing). -/
theorem add_ids_monotone (st : TrackerState)
    (calls : List (JobApplication × String)) :
    ((addAll st calls).2.Nodup
      ∧ (addAll st calls).2.Pairwise (fun i j => i ≤ j))
    ∧ ∀ (a : JobApplication) (now : String),
        ∃ rec ∈ (addApplication st a now).1.apps,
          rec.id = (addApplication st a now).2 := by
  refine ⟨⟨?_, ?_⟩, ?_⟩
  · rw [addAll_ids]
    exact List.nodup_range' _ _
  · rw [addAll_ids]
    exact List.pairwise_le_range' _ _
  · intro a now
    have hmem : ({ a with id := st.next_app_id, created_at := now, updated_at := now } : JobApplication) ∈ (addApplication st a now).1.apps := by
      simp [addApplication]
    exact ⟨_, hmem, rfl⟩

/-- C4 counterexample: the claim reads the company filter as literal
substring containment, but the source binds the filter into a LIKE
pattern, where percent and underscore are wildcards.  With one stored
application at company axb, the filter a-percent-b returns that record
even though its company does not contain the filter as a literal
substring. -/
theorem substring_claim_fails_on_wildcards :
    ((getApplications wildcardState "" "a%b" 50).map (fun a => a.company)
        = ["axb"])
    ∧ ¬ (∀ a ∈ getApplications wildcardState "" "a%b" 50,
          containsChars (lowerAscii a.company) (lowerAscii "a%b") = true) := by
  decide

/-- C4 amended: get_applications returns only stored records, matching
a non-empty status filter exactly and a non-empty company filter as the
SQL LIKE pattern percent-filter-percent, ASCII-case-insensitively; for
a filter containing no percent or underscore this coincides with
case-insensitive substring containment.  Results are ordered by
application_date descending and capped at the limit (50 when
unspecified, reflected by the optional-argument defaults making the
last conjunct definitional). -/
theorem get_applications_filters (st : TrackerState)
    (status company : String) (limit : Nat) :
    (∀ a ∈ getApplications st status company limit,
        a ∈ st.apps
        ∧ (status ≠ "" → a.status = status)
        ∧ (company ≠ "" →
            likeMatch (likePattern company) (lowerAscii a.company) = true))
    ∧ (('%' : Char) ∉ lowerAscii company → ('_' : Char) ∉ lowerAscii company →
        ∀ a ∈ getApplications st status company limit, company ≠ "" →
          containsChars (lowerAscii a.company) (lowerAscii company) = true)
    ∧ (getApplications st status company limit).Pairwise
        (fun x y => dateDesc x y = true)
    ∧ (getApplications st status company limit).length ≤ limit
    ∧ getApplications st = getApplications st "" "" 50 := by
  have hmain : ∀ a ∈ getApplications st status company limit,
      a ∈ st.apps
      ∧ (status ≠ "" → a.status = status)
      ∧ (company ≠ "" →
          likeMatch (likePattern company) (lowerAscii a.company) = true) := by
    intro a ha
    have hmem := List.take_subset _ _ ha
    rcases List.mem_filter.mp (mem_sortBy.mp hmem) with ⟨hin, hkeep⟩
    simp only [Bool.and_eq_true, Bool.or_eq_true, beq_iff_eq] at hkeep
    refine ⟨hin, fun hs => ?_, fun hc => ?_⟩
    · rcases hkeep.1 with h | h
      · exact absurd h hs
      · exact h
    · rcases hkeep.2 with h | h
      · exact absurd h hc
      · exact h
  refine ⟨hmain, ?_, ?_, ?_, rfl⟩
  · intro hp hu a ha hc
    have hlike := (hmain a ha).2.2 hc
    rwa [show likePattern company = '%' :: (lowerAscii company ++ ['%'])
          from rfl,
         likeMatch_literal (lowerAscii company) hp hu] at hlike
  · exact (@pairwise_sortBy JobApplication dateDesc
      (fun a b c h1 h2 => strLe_trans h2 h1)
      (fun a b => by simpa [dateDesc, Bool.or_comm] using strLe_total b.application_date a.application_date)
      _).sublist (List.take_sublist _ _)
  · exact List.length_take_le _ _

/-- Witness for the amended C4 at the example state with both filters
set and a limit of 2 (the wildcard-free filter goo also exercises the
substring-coincidence conjunct). -/
theorem get_applications_filters_witness :
    (∀ a ∈ getApplications exState "applied" "goo" 2,
        a ∈ exState.apps
        ∧ ("applied" ≠ "" → a.status = "applied")
        ∧ ("goo" ≠ "" →
            likeMatch (likePattern "goo") (lowerAscii a.company) = true))
    ∧ (('%' : Char) ∉ lowerAscii "goo" → ('_' : Char) ∉ lowerAscii "goo" →
        ∀ a ∈ getApplications exState "applied" "goo" 2, "goo" ≠ "" →
          containsChars (lowerAscii a.company) (lowerAscii "goo") = true)
    ∧ (getApplications exState "applied" "goo" 2).Pairwise
        (fun x y => dateDesc x y = true)
    ∧ (getApplications exState "applied" "goo" 2).length ≤ 2
    ∧ getApplications exState = getApplications exState "" "" 50 :=
  get_applications_filters exState "applied" "goo" 2

/-- C7: update_application stamps the updated record's updated_at with
the current time, returns True exactly when the UPDATE affected a row
(the row exists and the mapping does not move id onto another existing
id, which would abort with a constraint violation), in particular False
when the identifier is absent, and reports store-layer failure through
its boolean result rather than by raising: its except-block does not
re-raise. -/
theorem update_application_result (st : TrackerState) (aid : Nat)
    (u : AppUpdates) (now : String) :
    ((updateApplication st aid u now).2 = true ↔
        (∃ a ∈ st.apps, a.id = aid) ∧ ¬ idConflict st aid u)
    ∧ ((∀ a ∈ st.apps, a.id ≠ aid) →
        (updateApplication st aid u now).2 = false)
    ∧ (∀ a ∈ st.apps, a.id = aid → ¬ idConflict st aid u →
          applyUpdates u a now ∈ (updateApplication st aid u now).1.apps
          ∧ (applyUpdates u a now).updated_at = now)
    ∧ onStoreError TrackerOp.updateApplication
        = ExcOutcome.convertedToDefault := by
  refine ⟨?_, ?_, ?_, rfl⟩
  · unfold updateApplication
    split
    case isTrue hc => simp [hc]
    case isFalse hc =>
      split
      case isTrue hany =>
        simp only [true_iff]
        rcases List.any_eq_true.mp hany with ⟨x, hx, hxid⟩
        exact ⟨⟨x, hx, by simpa using hxid⟩, hc⟩
      case isFalse hany =>
        simp only [Bool.false_eq_true, false_iff, not_and, not_not]
        rintro ⟨x, hx, hxid⟩
        exact absurd (List.any_eq_true.mpr ⟨x, hx, by simp [hxid]⟩) hany
  · intro hall
    unfold updateApplication
    split
    · rfl
    · split
      case isTrue hany =>
        rcases List.any_eq_true.mp hany with ⟨x, hx, hxid⟩
        exact absurd (by simpa using hxid) (hall x hx)
      · rfl
  · intro a ha haid hnc
    unfold updateApplication
    rw [if_neg hnc, if_pos (List.any_eq_true.mpr ⟨a, ha, by simp [haid]⟩)]
    exact ⟨List.mem_map.mpr ⟨a, ha, by simp [haid]⟩, rfl⟩

/-- Witness for C7 at the example state, updating application 1's
status. -/
theorem update_application_result_witness :
    ((updateApplication exState 1 updStatusInterview "t9").2 = true ↔
        (∃ a ∈ exState.apps, a.id = 1)
        ∧ ¬ idConflict exState 1 updStatusInterview)
    ∧ ((∀ a ∈ exState.apps, a.id ≠ 1) →
        (updateApplication exState 1 updStatusInterview "t9").2 = false)
    ∧ (∀ a ∈ exState.apps, a.id = 1 →
        ¬ idConflict exState 1 updStatusInterview →
          applyUpdates updStatusInterview a "t9"
            ∈ (updateApplication exState 1 updStatusInterview "t9").1.apps
          ∧ (applyUpdates updStatusInterview a "t9").updated_at = "t9")
    ∧ onStoreError TrackerOp.updateApplication
        = ExcOutcome.convertedToDefault :=
  update_application_result exState 1 updStatusInterview "t9"

/-- C10: a status filter equal to the empty string is falsy in Python,
so no status condition is added and records of every status pass the
filter (only the company condition gates membership); an application_id
of 0 is falsy, so get_interviews returns every interview sorted by
interview_date descending rather than only those owned by 0.  The limit
hypothesis makes the whole filtered result fit under the cap. -/
theorem falsy_filters_disable (st : TrackerState) (company : String)
    (limit : Nat) (h : st.apps.length ≤ limit) :
    (∀ a ∈ st.apps,
        (company == ""
          || containsChars (lowerAscii a.company) (lowerAscii company)) = true →
        a ∈ getApplications st "" company limit)
    ∧ getInterviews st 0 = sortBy ivDateDesc st.interviews
    ∧ (∀ iv ∈ st.interviews, iv ∈ getInterviews st 0) := by
  refine ⟨?_, rfl, ?_⟩
  · intro a ha hc
    have hc' : company = ""
        ∨ containsChars (lowerAscii a.company) (lowerAscii company) = true := by
      simpa using hc
    have hk : (company == ""
        || likeMatch (likePattern company) (lowerAscii a.company)) = true := by
      rcases hc' with h1 | h1
      · simp [h1]
      · rw [show likePattern company = '%' :: (lowerAscii company ++ ['%'])
              from rfl,
            likeMatch_of_containsChars _ _ h1, Bool.or_true]
    unfold getApplications
    rw [List.take_of_length_le]
    · exact mem_sortBy.mpr (List.mem_filter.mpr ⟨ha, by simp [hk]⟩)
    · rw [length_sortBy]
      exact le_trans (st.apps.length_filter_le _) h
  · intro iv hiv
    show iv ∈ getInterviews st 0
    unfold getInterviews
    rw [if_neg (by simp)]
    exact mem_sortBy.mpr hiv

/-- Witness for C10 at the example state: the rejected application 2
is still returned under the empty status filter. -/
theorem falsy_filters_disable_witness :
    exState.apps.length ≤ 50
    ∧ ((∀ a ∈ exState.apps,
          (("goo" : String) == ""
            || containsChars (lowerAscii a.company) (lowerAscii "goo")) = true →
          a ∈ getApplications exState "" "goo" 50)
      ∧ getInterviews exState 0 = sortBy ivDateDesc exState.interviews
      ∧ (∀ iv ∈ exState.interviews, iv ∈ getInterviews exState 0)) :=
  ⟨by decide, falsy_filters_disable exState "goo" 50 (by decide)⟩

/-- C8 counterexample: the update mapping may name the id column, and
update_application then changes the identifier of the record: in a
store holding one application with id 1, updating with the mapping
id := 5 succeeds and leaves a record with id 5, so the identifier is
not immutable under every field-to-value mapping. -/
theorem update_can_change_id :
    exState.apps.map (fun a => a.id) = [1, 2]
    ∧ (updateApplication exState 1 updIdFive "t9").2 = true
    ∧ ((updateApplication exState 1 updIdFive "t9").1.apps.map
        (fun a => a.id)) = [5, 2] := by decide

/-- C8 amended: provided the mapping does not name the identifier
column, updating an existing application changes only the named fields
and the update timestamp: the identifier and every unnamed field keep
their values, every other application record is untouched, and the
interview table is untouched. -/
theorem update_frame (st : TrackerState) (aid : Nat) (u : AppUpdates)
    (now : String) (hid : u.id = none) :
    (∀ a ∈ st.apps, a.id ≠ aid →
        a ∈ (updateApplication st aid u now).1.apps)
    ∧ (∀ a ∈ st.apps, a.id = aid →
        ∃ b ∈ (updateApplication st aid u now).1.apps,
          b.id = a.id
          ∧ (u.company = none → b.company = a.company)
          ∧ (u.position = none → b.position = a.position)
          ∧ (u.location = none → b.location = a.location)
          ∧ (u.job_url = none → b.job_url = a.job_url)
          ∧ (u.job_description = none → b.job_description = a.job_description)
          ∧ (u.application_date = none → b.application_date = a.application_date)
          ∧ (u.status = none → b.status = a.status)
          ∧ (u.priority = none → b.priority = a.priority)
          ∧ (u.salary_range = none → b.salary_range = a.salary_range)
          ∧ (u.notes = none → b.notes = a.notes)
          ∧ (u.recruiter_name = none → b.recruiter_name = a.recruiter_name)
          ∧ (u.recruiter_email = none → b.recruiter_email = a.recruiter_email)
          ∧ (u.follow_up_date = none → b.follow_up_date = a.follow_up_date)
          ∧ (u.interview_date = none → b.interview_date = a.interview_date)
          ∧ (u.interview_type = none → b.interview_type = a.interview_type)
          ∧ (u.interview_notes = none → b.interview_notes = a.interview_notes)
          ∧ (u.rejection_reason = none → b.rejection_reason = a.rejection_reason)
          ∧ (u.offer_amount = none → b.offer_amount = a.offer_amount)
          ∧ (u.created_at = none → b.created_at = a.created_at)
          ∧ b.updated_at = now)
    ∧ (updateApplication st aid u now).1.interviews = st.interviews
    ∧ (updateApplication st aid u now).1.apps.length = st.apps.length := by
  have hnc : ¬ idConflict st aid u := by simp [idConflict, hid]
  unfold updateApplication
  rw [if_neg hnc]
  by_cases hany : st.apps.any (fun a => a.id == aid) = true
  · rw [if_pos hany]
    refine ⟨?_, ?_, rfl, by simp⟩
    · intro a ha hne
      exact List.mem_map.mpr ⟨a, ha, by simp [hne]⟩
    · intro a ha haid
      refine ⟨applyUpdates u a now,
        List.mem_map.mpr ⟨a, ha, by simp [haid]⟩, ?_⟩
      refine ⟨by simp [applyUpdates, hid], ?_⟩
      repeat' constructor
      all_goals
        first
          | rfl
          | (intro hf; simp [applyUpdates, hf])
  · rw [if_neg hany]
    refine ⟨fun a ha _ => ha, ?_, rfl, rfl⟩
    intro a ha haid
    exact absurd (List.any_eq_true.mpr ⟨a, ha, by simp [haid]⟩) hany

/-- Witness for the amended C8 at the example state: updating
application 1's status only. -/
theorem update_frame_witness :
    updStatusInterview.id = none
    ∧ ((∀ a ∈ exState.apps, a.id ≠ 1 →
          a ∈ (updateApplication exState 1 updStatusInterview "t9").1.apps)
      ∧ (∀ a ∈ exState.apps, a.id = 1 →
          ∃ b ∈ (updateApplication exState 1 updStatusInterview "t9").1.apps,
            b.id = a.id
            ∧ (updStatusInterview.company = none → b.company = a.company)
            ∧ (updStatusInterview.position = none → b.position = a.position)
            ∧ (updStatusInterview.location = none → b.location = a.location)
            ∧ (updStatusInterview.job_url = none → b.job_url = a.job_url)
            ∧ (updStatusInterview.job_description = none → b.job_description = a.job_description)
            ∧ (updStatusInterview.application_date = none → b.application_date = a.application_date)
            ∧ (updStatusInterview.status = none → b.status = a.status)
            ∧ (updStatusInterview.priority = none → b.priority = a.priority)
            ∧ (updStatusInterview.salary_range = none → b.salary_range = a.salary_range)
            ∧ (updStatusInterview.notes = none → b.notes = a.notes)
            ∧ (updStatusInterview.recruiter_name = none → b.recruiter_name = a.recruiter_name)
            ∧ (updStatusInterview.recruiter_email = none → b.recruiter_email = a.recruiter_email)
            ∧ (updStatusInterview.follow_up_date = none → b.follow_up_date = a.follow_up_date)
            ∧ (updStatusInterview.interview_date = none → b.interview_date = a.interview_date)
            ∧ (updStatusInterview.interview_type = none → b.interview_type = a.interview_type)
            ∧ (updStatusInterview.interview_notes = none → b.interview_notes = a.interview_notes)
            ∧ (updStatusInterview.rejection_reason = none → b.rejection_reason = a.rejection_reason)
            ∧ (updStatusInterview.offer_amount = none → b.offer_amount = a.offer_amount)
            ∧ (updStatusInterview.created_at = none → b.created_at = a.created_at)
            ∧ b.updated_at = "t9")
      ∧ (updateApplication exState 1 updStatusInterview "t9").1.interviews
          = exState.interviews
      ∧ (updateApplication exState 1 updStatusInterview "t9").1.apps.length
          = exState.apps.length) :=
  ⟨rfl, update_frame exState 1 updStatusInterview "t9" rfl⟩

/-- C2: get_statistics returns response_rate equal to the number of
stored applications whose status is interview_scheduled, rejected or
offer_received, divided by the total number of applications, as a
percentage rounded to two decimals; with no applications the rate is 0
because the source guards the division with `if total_applications > 0`
(in the embedding the guard appears as the if on the length).  The
arithmetic is modelled over the rationals; Python computes it on IEEE
doubles, whose rounding of the quotient is not modelled. -/
theorem response_rate_formula (st : TrackerState) :
    (getStatistics st).response_rate =
      if st.apps.length = 0 then 0
      else round2 (((st.apps.countP (fun a =>
              a.status == "interview_scheduled"
              || (a.status == "rejected" || a.status == "offer_received"))
            : ℚ))
          / (st.apps.length : ℚ) * 100) := by
  have hdisj1 : ∀ a : JobApplication,
      ¬((a.status == "rejected") = true
        ∧ (a.status == "offer_received") = true) := by
    rintro a ⟨x, y⟩
    simp at x y
    rw [x] at y
    exact absurd y (by decide)
  have hdisj2 : ∀ a : JobApplication,
      ¬((a.status == "interview_scheduled") = true
        ∧ ((a.status == "rejected") || (a.status == "offer_received")) = true) := by
    rintro a ⟨x, y⟩
    simp at x y
    rcases y with y | y <;> (rw [x] at y; exact absurd y (by decide))
  have hcount : st.apps.countP (fun a =>
        a.status == "interview_scheduled"
        || (a.status == "rejected" || a.status == "offer_received"))
      = st.apps.countP (fun a => a.status == "interview_scheduled")
        + (st.apps.countP (fun a => a.status == "rejected")
          + st.apps.countP (fun a => a.status == "offer_received")) := by
    rw [countP_or_disjoint _ _ hdisj2, countP_or_disjoint _ _ hdisj1]
  have hl1 := lookupD_countsBy (fun a => a.status) st.apps "interview_scheduled"
  have hl2 := lookupD_countsBy (fun a => a.status) st.apps "rejected"
  have hl3 := lookupD_countsBy (fun a => a.status) st.apps "offer_received"
  unfold getStatistics
  dsimp only
  by_cases hz : st.apps.length = 0
  · rw [hz]
    simp [round2_zero]
  · have hpos : 0 < st.apps.length := Nat.pos_of_ne_zero hz
    rw [if_pos hpos, if_neg hz, hl1, hl2, hl3, hcount, Nat.add_assoc]

/-- C9 counterexample: with eleven applications at eleven distinct
companies, the company grouping of get_statistics holds only ten
entries (the SQL query ends in LIMIT 10), so it does not contain an
entry for every distinct company. -/
theorem company_counts_capped :
    (getStatistics elevenState).company_counts.length = 10
    ∧ (distinctKeys (elevenState.apps.map (fun a => a.company))).length = 11
    ∧ ¬ (∀ c ∈ elevenState.apps.map (fun a => a.company),
          ∃ p ∈ (getStatistics elevenState).company_counts, p.1 = c) := by
  decide

/-- C9 amended: the per-company count contains an entry for every
distinct company whenever at most ten companies occur, and the
per-month count contains an entry for every distinct month of
application_date whenever at most twelve months occur; beyond that the
queries keep only the ten companies with the highest counts and the
twelve most recent months. -/
theorem group_counts_cover (st : TrackerState)
    (hc : (distinctKeys (st.apps.map (fun a => a.company))).length ≤ 10)
    (hm : (distinctKeys (st.apps.map monthKey)).length ≤ 12) :
    (∀ c ∈ st.apps.map (fun a => a.company),
        ∃ p ∈ (getStatistics st).company_counts, p.1 = c)
    ∧ (∀ m ∈ st.apps.map monthKey,
        ∃ p ∈ (getStatistics st).monthly_counts, p.1 = m) := by
  constructor
  · intro c hcmem
    have h1 : c ∈ sortBy strAsc (distinctKeys (st.apps.map (fun a => a.company))) :=
      mem_sortBy.mpr (mem_distinctKeys.mpr hcmem)
    have h2 : (c, st.apps.countP (fun a => a.company == c))
        ∈ countsBy (fun a => a.company) st.apps :=
      List.mem_map_of_mem _ h1
    have h3 : (c, st.apps.countP (fun a => a.company == c))
        ∈ sortBy countDesc (countsBy (fun a => a.company) st.apps) :=
      mem_sortBy.mpr h2
    have hlen : (sortBy countDesc (countsBy (fun a => a.company) st.apps)).length ≤ 10 := by
      rw [length_sortBy]
      unfold countsBy
      rw [List.length_map, length_sortBy]
      exact hc
    have hcc : (getStatistics st).company_counts
        = (sortBy countDesc (countsBy (fun a => a.company) st.apps)).take 10 := rfl
    rw [hcc, List.take_of_length_le hlen]
    exact ⟨_, h3, rfl⟩
  · intro m hmmem
    have h1 : m ∈ sortBy strAsc (distinctKeys (st.apps.map monthKey)) :=
      mem_sortBy.mpr (mem_distinctKeys.mpr hmmem)
    have h2 : (m, st.apps.countP (fun a => monthKey a == m))
        ∈ countsBy monthKey st.apps :=
      List.mem_map_of_mem _ h1
    have h3 : (m, st.apps.countP (fun a => monthKey a == m))
        ∈ sortBy keyDesc (countsBy monthKey st.apps) :=
      mem_sortBy.mpr h2
    have hlen : (sortBy keyDesc (countsBy monthKey st.apps)).length ≤ 12 := by
      rw [length_sortBy]
      unfold countsBy
      rw [List.length_map, length_sortBy]
      exact hm
    have hmc : (getStatistics st).monthly_counts
        = (sortBy keyDesc (countsBy monthKey st.apps)).take 12 := rfl
    rw [hmc, List.take_of_length_le hlen]
    exact ⟨_, h3, rfl⟩

/-- Witness for the amended C9 at the example state, which has two
distinct companies and two distinct months. -/
theorem group_counts_cover_witness :
    (distinctKeys (exState.apps.map (fun a => a.company))).length ≤ 10
    ∧ (distinctKeys (exState.apps.map monthKey)).length ≤ 12
    ∧ ((∀ c ∈ exState.apps.map (fun a => a.company),
          ∃ p ∈ (getStatistics exState).company_counts, p.1 = c)
      ∧ (∀ m ∈ exState.apps.map monthKey,
          ∃ p ∈ (getStatistics exState).monthly_counts, p.1 = m)) :=
  ⟨by decide, by decide, group_counts_cover exState (by decide) (by decide)⟩

end JobTracker
